import Mathlib

/-!
Shallow embedding of `src/python/examples/replay_mission/replay_mission.py`.

The script is a linear orchestration state machine: connect, acquire a lease,
upload graph/mission data, stand the robot up, run (or repeat) a mission by
polling its state, and finally — in a `try`/`finally` block — power off and
return the lease.  All remote calls are modelled by an environment record
(`Env`) that fixes the outcome of each external observation, and the script's
own control flow is translated function by function.  Observable remote
side effects are recorded as an ordered `List Event`.
-/

set_option autoImplicit false

namespace ReplayMission

/-- Mission execution status, mirroring the `mission_pb2.State.STATUS_*` values
used by the script. -/
inductive MissionStatus
  | NONE
  | RUNNING
  | SUCCESS
  | FAILURE
  | PAUSED
  | ERROR
deriving DecidableEq, Repr

/-- Python membership test `mission_state.status in (STATUS_NONE, STATUS_RUNNING)`
from the `run_mission` loop guard. -/
def statusContinues (s : MissionStatus) : Bool :=
  s == MissionStatus.NONE || s == MissionStatus.RUNNING

/-- Python membership test `status in (STATUS_SUCCESS, STATUS_PAUSED)` from the
final return of `run_mission`. -/
def statusSuccessful (s : MissionStatus) : Bool :=
  s == MissionStatus.SUCCESS || s == MissionStatus.PAUSED

/-- One observation returned by `mission_client.get_state()`: the `status` field
and whether the `questions` sequence is nonempty (Python truthiness of
`mission_state.questions`). -/
structure Poll where
  status : MissionStatus
  questions : Bool
deriving DecidableEq, Repr

/-- Result of one `run_mission` call: the boolean it returns, how many
`play_mission` calls it issued, how many `get_state` polls it consumed, and
whether it returned through the question-abort branch. -/
structure RunResult where
  success : Bool
  plays : Nat
  pollsUsed : Nat
  abortedByQuestion : Bool
deriving DecidableEq, Repr

/-- Shallow embedding of `run_mission`.  The argument list is the sequence of
`get_state` results the service would report; the function consumes one entry
per poll.  `none` models the case where the supplied trace is exhausted while
the loop guard still holds (the script would keep polling forever). -/
def run_mission (fail_on_question : Bool) : List Poll → Option RunResult
  | [] => none
  | p :: rest =>
    if statusContinues p.status then
      if p.questions && fail_on_question then
        some ⟨false, 0, 1, true⟩
      else
        (run_mission fail_on_question rest).map
          fun r => ⟨r.success, r.plays + 1, r.pollsUsed + 1, r.abortedByQuestion⟩
    else
      some ⟨statusSuccessful p.status, 0, 1, false⟩

/-- Shallow embedding of `restart_mission`: one restart RPC is issued; the
service reports a status and the function returns `status == STATUS_SUCCESS`. -/
def restart_mission (reportedStatus : MissionStatus) : Bool :=
  reportedStatus == MissionStatus.SUCCESS

/-- Environment for one iteration of the repeat loop in `repeat_mission`: the
status the restart RPC reports, the wall-clock duration of the restart step,
the `get_state` trace of the following `run_mission` call, and that run's
wall-clock duration. -/
structure Iteration where
  restartStatus : MissionStatus
  restartDuration : Nat
  polls : List Poll
  runDuration : Nat
deriving DecidableEq, Repr

/-- Result of one `repeat_mission` call: the boolean it returns, the number of
`run_mission` invocations, the number of restart RPCs, the total number of
`play_mission` calls across all runs, and whether any run aborted on a
question. -/
structure RepeatResult where
  success : Bool
  runs : Nat
  restarts : Nat
  plays : Nat
  abortedByQuestion : Bool
deriving DecidableEq, Repr

/-- Shallow embedding of the `while elapsed_time < total_time` loop of
`repeat_mission`.  The loop is entered only after a successful run, issues a
restart (whose boolean result the source discards) and then one more run per
iteration, and stops as soon as either the elapsed time reaches the budget or
a run fails.  `none` models an exhausted iteration oracle. -/
def repeatLoop (fq : Bool) (total_time : Nat) : Nat → List Iteration → Option RepeatResult
  | elapsed, [] =>
    if elapsed < total_time then none else some ⟨true, 0, 0, 0, false⟩
  | elapsed, it :: rest =>
    if elapsed < total_time then
      let _restartOk := restart_mission it.restartStatus
      match run_mission fq it.polls with
      | none => none
      | some r =>
        if r.success then
          (repeatLoop fq total_time (elapsed + it.restartDuration + it.runDuration) rest).map
            fun rr =>
              ⟨rr.success, rr.runs + 1, rr.restarts + 1, rr.plays + r.plays,
                rr.abortedByQuestion || r.abortedByQuestion⟩
        else
          some ⟨false, 1, 1, r.plays, r.abortedByQuestion⟩
    else
      some ⟨true, 0, 0, 0, false⟩

/-- Shallow embedding of `repeat_mission`: run the mission once, measure the
elapsed time, return `false` at once if that run failed, otherwise enter the
timed repeat loop. -/
def repeat_mission (fq : Bool) (total_time : Nat) (firstPolls : List Poll)
    (firstDuration : Nat) (iters : List Iteration) : Option RepeatResult :=
  match run_mission fq firstPolls with
  | none => none
  | some r =>
    if r.success then
      (repeatLoop fq total_time firstDuration iters).map
        fun rr =>
          ⟨rr.success, rr.runs + 1, rr.restarts, rr.plays + r.plays,
            rr.abortedByQuestion || r.abortedByQuestion⟩
    else
      some ⟨false, 1, 0, r.plays, r.abortedByQuestion⟩

/-- Result of `ensure_power_on`: the boolean it returns, the power state of the
robot afterwards, and whether a `power_on` command was issued. -/
structure PowerOnResult where
  result : Bool
  poweredAfter : Bool
  commandIssued : Bool
deriving DecidableEq, Repr

/-- Shallow embedding of `ensure_power_on`: if the robot is already powered on,
return `true` immediately; otherwise issue `power_on` (whose success the
environment decides) and re-check. -/
def ensure_power_on (poweredOn : Bool) (powerOnWorks : Bool) : PowerOnResult :=
  if poweredOn then ⟨true, true, false⟩
  else ⟨powerOnWorks, powerOnWorks, true⟩

/-- Result of `ensure_power_off`: the boolean it returns and whether a
`power_off` command was issued. -/
structure PowerOffResult where
  result : Bool
  commandIssued : Bool
deriving DecidableEq, Repr

/-- Shallow embedding of `ensure_power_off`: if the robot is powered on, issue
`power_off` (whose success the environment decides); return `true` iff the
robot is off afterwards. -/
def ensure_power_off (poweredOn : Bool) (powerOffWorks : Bool) : PowerOffResult :=
  if poweredOn then
    if powerOffWorks then ⟨true, true⟩ else ⟨false, true⟩
  else ⟨true, false⟩

/-- Observable remote side effects issued by the script, in program order. -/
inductive Event
  | acquireLease
  | clearGraph
  | uploadGraph (lease : Nat)
  | uploadWaypointSnapshot (sid : String) (lease : Nat)
  | uploadEdgeSnapshot (sid : String) (lease : Nat)
  | loadMission (lease : Nat)
  | powerOnCmd
  | standCmd
  | playMission
  | restartCmd
  | powerOffCmd
  | returnLease
deriving DecidableEq, Repr

/-- Graph-clearing and upload calls, as read off the map directory in
`init_clients` / `upload_graph_and_snapshots`. -/
def Event.isGraphOp : Event → Bool
  | Event.clearGraph => true
  | Event.uploadGraph _ => true
  | Event.uploadWaypointSnapshot _ _ => true
  | Event.uploadEdgeSnapshot _ _ => true
  | _ => false

/-- Localization graph as the script sees it: the waypoint snapshot ids and the
edge snapshot ids referenced by the parsed graph, in file order.  The snapshot
file stored for an id parses back to a snapshot with that same id. -/
structure Graph where
  waypointSnapshotIds : List String
  edgeSnapshotIds : List String
deriving DecidableEq, Repr

/-- Key sequence of a Python dict built by repeated assignment `d[k] = v`:
first-occurrence order with later duplicates dropped, which is what
`current_waypoint_snapshots.values()` iterates over. -/
def dictKeys : List String → List String
  | [] => []
  | k :: rest => k :: (dictKeys rest).filter (fun x => x != k)

/-- Shallow embedding of `upload_graph_and_snapshots`: all files are read
first, then the graph is uploaded, then every waypoint snapshot, then every
edge snapshot, each upload carrying the lease passed in. -/
def upload_graph_and_snapshots (lease : Nat) (g : Graph) : List Event :=
  [Event.uploadGraph lease]
    ++ (dictKeys g.waypointSnapshotIds).map (fun sid => Event.uploadWaypointSnapshot sid lease)
    ++ (dictKeys g.edgeSnapshotIds).map (fun sid => Event.uploadEdgeSnapshot sid lease)

/-- Fatal conditions: each one terminates the process with a nonzero exit,
matching `sys.exit(1)`, a raised exception, or a failed `assert` in the
source. -/
inductive Fatal
  | noMissionOrMap
  | connectFailed
  | leaseDenied
  | missionFileMissing
  | mapDirMissing
  | mapReadFailed
  | estopped
  | powerOnFailed
deriving DecidableEq, Repr

/-- Outcomes of every external observation the script makes, fixed up front:
connection and lease results, file-system checks, the graph on disk, estop and
power states, and the mission-state traces consumed by the execute phase. -/
structure Env where
  connectOk : Bool
  leaseGranted : Bool
  missionFileExists : Bool
  mapDirExists : Bool
  graph : Graph
  mapFilesReadable : Bool
  estopActive : Bool
  poweredOn : Bool
  powerOnWorks : Bool
  powerOffWorks : Bool
  firstPolls : List Poll
  firstRunDuration : Nat
  iterations : List Iteration
deriving DecidableEq, Repr

/-- Command-line arguments after parsing, with `mission_file` still as given on
the command line (the default derived from the map directory is applied inside
`mainRun`'s argument check). -/
structure Args where
  map_directory : Option String
  mission_file : Option String
  duration : Nat
  static_mode : Bool
deriving DecidableEq, Repr

/-- Shallow embedding of `init_clients`: check the mission file exists, then —
only when a map directory was supplied — check the directory, clear the remote
graph state and upload graph and snapshots, and finally upload the mission.
Returns the events issued together with the fatal error, if any. -/
def init_clients (env : Env) (lease : Nat) (do_map_load : Bool) :
    List Event × Option Fatal :=
  if !env.missionFileExists then
    ([], some Fatal.missionFileMissing)
  else if do_map_load then
    if !env.mapDirExists then
      ([], some Fatal.mapDirMissing)
    else if !env.mapFilesReadable then
      ([Event.clearGraph], some Fatal.mapReadFailed)
    else
      (Event.clearGraph :: upload_graph_and_snapshots lease env.graph
        ++ [Event.loadMission lease], none)
  else
    ([Event.loadMission lease], none)

/-- Result of the `try` block of `main`: the events it issued, the fatal error
that aborted it (if any), the power state of the robot when it ended, and
whether the execute phase aborted a run on an operator question. -/
structure BodyResult where
  events : List Event
  fatal : Option Fatal
  poweredAfter : Bool
  questionAborted : Bool
deriving DecidableEq, Repr

/-- Shallow embedding of the `try` block of `main`: initialize clients (with
uploads), verify estop, ensure power on, stand, then run or repeat the mission
unless `static_mode` is set.  `none` models an exhausted poll trace. -/
def tryBody (args : Args) (env : Env) (lease : Nat) : Option BodyResult :=
  let do_map_load := args.map_directory.isSome
  let fail_on_question := args.map_directory.isSome
  match init_clients env lease do_map_load with
  | (evs, some f) => some ⟨evs, some f, env.poweredOn, false⟩
  | (evs, none) =>
    if env.estopActive then
      some ⟨evs, some Fatal.estopped, env.poweredOn, false⟩
    else
      let pw := ensure_power_on env.poweredOn env.powerOnWorks
      let evs2 := evs ++ (if pw.commandIssued then [Event.powerOnCmd] else [])
      if !pw.result then
        some ⟨evs2, some Fatal.powerOnFailed, pw.poweredAfter, false⟩
      else
        let evs3 := evs2 ++ [Event.standCmd]
        if args.static_mode then
          some ⟨evs3, none, pw.poweredAfter, false⟩
        else if args.duration == 0 then
          match run_mission fail_on_question env.firstPolls with
          | none => none
          | some r =>
            some ⟨evs3 ++ List.replicate r.plays Event.playMission, none,
              pw.poweredAfter, r.abortedByQuestion⟩
        else
          match repeat_mission fail_on_question args.duration env.firstPolls
              env.firstRunDuration env.iterations with
          | none => none
          | some rr =>
            some ⟨evs3 ++ List.replicate rr.restarts Event.restartCmd
                ++ List.replicate rr.plays Event.playMission, none,
              pw.poweredAfter, rr.abortedByQuestion⟩

/-- Result of a whole `main` run: the process exit code, the fatal condition
(if any), the ordered remote side effects, and whether a run aborted on a
question. -/
structure MainResult where
  exitCode : Nat
  fatal : Option Fatal
  events : List Event
  questionAborted : Bool
deriving DecidableEq, Repr

/-- Shallow embedding of `main`: argument validation and connection happen
before the lease is requested; a denied lease raises before the `try` block is
entered; once the lease is acquired the `finally` clause (power-off attempt
followed by the lease return) runs on every exit path of the body, after which
the body's own outcome decides the exit code. -/
def mainRun (args : Args) (env : Env) : Option MainResult :=
  if args.mission_file.isNone && args.map_directory.isNone then
    some ⟨1, some Fatal.noMissionOrMap, [], false⟩
  else if !env.connectOk then
    some ⟨1, some Fatal.connectFailed, [], false⟩
  else if !env.leaseGranted then
    some ⟨1, some Fatal.leaseDenied, [], false⟩
  else
    match tryBody args env 0 with
    | none => none
    | some body =>
      let po := ensure_power_off body.poweredAfter env.powerOffWorks
      let releaseEvents :=
        (if po.commandIssued then [Event.powerOffCmd] else []) ++ [Event.returnLease]
      some ⟨(if body.fatal.isSome then 1 else 0), body.fatal,
        Event.acquireLease :: body.events ++ releaseEvents,
        body.questionAborted⟩

/-- A poll at which the `run_mission` loop stops: either its status is outside
{NONE, RUNNING}, or it triggers the question abort (pending questions while
`fail_on_question` is set). -/
def stopsPoll (fq : Bool) (p : Poll) : Bool :=
  !statusContinues p.status || (p.questions && fq)

/-- Index of the first poll of a trace at which `run_mission` stops. -/
def firstStopIdx (fq : Bool) : List Poll → Option Nat
  | [] => none
  | p :: rest =>
    if stopsPoll fq p then some 0 else (firstStopIdx fq rest).map (fun n => n + 1)

/-- Everything `repeat_mission` can observe about one iteration: the poll trace
of its run and the two durations — the status reported by the restart RPC is
deliberately excluded. -/
def Iteration.observables (it : Iteration) : List Poll × Nat × Nat :=
  (it.polls, it.restartDuration, it.runDuration)

/-- Concrete argument vector: static mode, explicit mission file, no map
directory. -/
def argsStatic : Args := ⟨none, some "m", 0, true⟩

/-- Concrete argument vector: map directory and mission file both given, single
run. -/
def argsBoth : Args := ⟨some "d", some "m", 0, false⟩

/-- Concrete argument vector: mission file only, single run. -/
def argsNoMap : Args := ⟨none, some "m", 0, false⟩

/-- Concrete environment where everything works except the power-off at
release time, with the robot initially powered on. -/
def envPowerOffFails : Env :=
  ⟨true, true, true, true, ⟨[], []⟩, true, false, true, true, false, [], 0, []⟩

/-- Concrete environment where the mission file is absent and the robot is
powered off. -/
def envNoFile : Env :=
  ⟨true, true, false, true, ⟨[], []⟩, true, false, false, true, true, [], 0, []⟩

/-- Concrete environment with a loadable two-waypoint, one-edge map (one
waypoint snapshot id repeated). -/
def envMap : Env :=
  ⟨true, true, true, true, ⟨["w1", "w1", "w2"], ["e1"]⟩, true, false, true, true, true,
    [], 0, []⟩

/-- Concrete environment for a single run whose first poll is RUNNING with a
pending question and whose second poll is SUCCESS. -/
def envRun : Env :=
  ⟨true, true, true, true, ⟨["w"], ["e"]⟩, true, false, true, true, true,
    [⟨MissionStatus.RUNNING, true⟩, ⟨MissionStatus.SUCCESS, false⟩], 0, []⟩

/-- Statuses that keep the poll loop going (NONE, RUNNING) are never counted
as successful final statuses (SUCCESS, PAUSED). -/
theorem statusContinues_not_successful (s : MissionStatus)
    (h : statusContinues s = true) : statusSuccessful s = false := by
  cases s <;> simp_all [statusContinues, statusSuccessful]

/-- Membership in the dict-key sequence agrees with membership in the source
list. -/
theorem mem_dictKeys (x : String) (l : List String) : x ∈ dictKeys l ↔ x ∈ l := by
  induction l with
  | nil => simp [dictKeys]
  | cons k rest ih =>
    by_cases hx : x = k
    · subst hx
      simp [dictKeys]
    · simp [dictKeys, List.mem_filter, hx, ih]

/-- Past the elapsed-time budget the repeat loop exits at once with the last
(successful) run result. -/
theorem repeatLoop_done (fq : Bool) (t e : Nat) (iters : List Iteration)
    (h : t ≤ e) : repeatLoop fq t e iters = some ⟨true, 0, 0, 0, false⟩ := by
  cases iters <;> simp [repeatLoop, Nat.not_lt.mpr h]

/-- With `fail_on_question` unset, `run_mission` never reports a question
abort. -/
theorem run_mission_no_abort (trace : List Poll) (r : RunResult)
    (h : run_mission false trace = some r) : r.abortedByQuestion = false := by
  induction trace generalizing r with
  | nil => simp [run_mission] at h
  | cons p rest ih =>
    by_cases hc : statusContinues p.status = true
    · simp only [run_mission, hc, if_true, Bool.and_false, Bool.false_eq_true,
        if_false, Option.map_eq_some'] at h
      obtain ⟨r0, h0, rfl⟩ := h
      exact ih r0 h0
    · simp only [run_mission, Bool.not_eq_true] at h
      rw [Bool.not_eq_true] at hc
      simp only [hc, Bool.false_eq_true, if_false, Option.some.injEq] at h
      subst h
      rfl

/-- With `fail_on_question` unset, the repeat loop never reports a question
abort. -/
theorem repeatLoop_no_abort (t : Nat) (l : List Iteration) :
    ∀ (e : Nat) (rr : RepeatResult),
      repeatLoop false t e l = some rr → rr.abortedByQuestion = false := by
  induction l with
  | nil =>
    intro e rr h
    by_cases he : e < t
    · simp [repeatLoop, he] at h
    · simp [repeatLoop, he] at h
      subst h
      rfl
  | cons a l ih =>
    intro e rr h
    by_cases he : e < t
    · simp only [repeatLoop, he, if_true] at h
      rcases hrm : run_mission false a.polls with _ | r
      · rw [hrm] at h
        simp at h
      · rw [hrm] at h
        by_cases hs : r.success = true
        · simp only [hs, if_true, Option.map_eq_some'] at h
          obtain ⟨rr0, h0, rfl⟩ := h
          simp [ih _ rr0 h0, run_mission_no_abort a.polls r hrm]
        · rw [Bool.not_eq_true] at hs
          simp only [hs, Bool.false_eq_true, if_false, Option.some.injEq] at h
          subst h
          exact run_mission_no_abort a.polls r hrm
    · simp only [repeatLoop, he, if_false, Option.some.injEq] at h
      subst h
      rfl

/-- With `fail_on_question` unset, `repeat_mission` never reports a question
abort. -/
theorem repeat_mission_no_abort (t : Nat) (fp : List Poll) (fd : Nat)
    (iters : List Iteration) (rr : RepeatResult)
    (h : repeat_mission false t fp fd iters = some rr) :
    rr.abortedByQuestion = false := by
  simp only [repeat_mission] at h
  rcases hrm : run_mission false fp with _ | r
  · rw [hrm] at h
    simp at h
  · rw [hrm] at h
    by_cases hs : r.success = true
    · simp only [hs, if_true, Option.map_eq_some'] at h
      obtain ⟨rr0, h0, rfl⟩ := h
      simp [repeatLoop_no_abort t iters fd rr0 h0, run_mission_no_abort fp r hrm]
    · rw [Bool.not_eq_true] at hs
      simp only [hs, Bool.false_eq_true, if_false, Option.some.injEq] at h
      subst h
      exact run_mission_no_abort fp r hrm

/-- C3 counterexample: with `fail_on_question` set and a first poll reporting
status RUNNING together with a pending question, `run_mission` stops at that
very first poll (one poll consumed, zero plays, result `false`) even though the
status first leaves {NONE, RUNNING} only at index 1, where it is SUCCESS — so
the loop does not run exactly while the status is in {NONE, RUNNING}, and the
poll the claim calls final (the SUCCESS at index 1) is never reached. -/
theorem C3_counterexample :
    run_mission true [⟨MissionStatus.RUNNING, true⟩, ⟨MissionStatus.SUCCESS, false⟩]
        = some ⟨false, 0, 1, true⟩ ∧
    firstStopIdx false [⟨MissionStatus.RUNNING, true⟩, ⟨MissionStatus.SUCCESS, false⟩]
        = some 1 := by
  exact ⟨rfl, rfl⟩

/-- C3 (amended): for every single-run execution, `run_mission` terminates at
the first poll that either has a status outside {NONE, RUNNING} or triggers
the question abort (pending questions while `fail_on_question` is set),
issuing one play per earlier poll and none for that final poll; it returns
true iff that final polled status is SUCCESS or PAUSED. -/
theorem C3_run_mission_poll_loop (fq : Bool) (trace : List Poll) (r : RunResult)
    (h : run_mission fq trace = some r) :
    firstStopIdx fq trace = some r.plays ∧
    r.pollsUsed = r.plays + 1 ∧
    ∃ p, trace.get? r.plays = some p ∧ r.success = statusSuccessful p.status := by
  induction trace generalizing r with
  | nil => simp [run_mission] at h
  | cons p rest ih =>
    by_cases hc : statusContinues p.status = true
    · by_cases hq : (p.questions && fq) = true
      · simp only [run_mission, hc, if_true, hq, Option.some.injEq] at h
        subst h
        refine ⟨?_, rfl, p, rfl, ?_⟩
        · simp [firstStopIdx, stopsPoll, hc, hq]
        · rw [statusContinues_not_successful p.status hc]
      · rw [Bool.not_eq_true] at hq
        simp only [run_mission, hc, if_true, hq, Bool.false_eq_true, if_false,
          Option.map_eq_some'] at h
        obtain ⟨r0, h0, rfl⟩ := h
        obtain ⟨hfs, hpu, p1, hget, hsucc⟩ := ih r0 h0
        refine ⟨?_, by simp [hpu], p1, ?_, hsucc⟩
        · simp [firstStopIdx, stopsPoll, hc, hq, hfs]
        · simpa [List.get?_cons_succ] using hget
    · rw [Bool.not_eq_true] at hc
      simp only [run_mission, hc, Bool.false_eq_true, if_false, Option.some.injEq] at h
      subst h
      refine ⟨?_, rfl, p, rfl, rfl⟩
      simp [firstStopIdx, stopsPoll, hc]

/-- C3 amended-claim witness: an immediately successful trace terminates at
poll index 0 with result true. -/
theorem C3_run_mission_poll_loop_witness :
    firstStopIdx false [Poll.mk MissionStatus.SUCCESS false] = some 0 ∧
    (RunResult.mk true 0 1 false).pollsUsed = (RunResult.mk true 0 1 false).plays + 1 ∧
    ∃ p, [Poll.mk MissionStatus.SUCCESS false].get? (RunResult.mk true 0 1 false).plays
        = some p ∧ (RunResult.mk true 0 1 false).success = statusSuccessful p.status :=
  C3_run_mission_poll_loop false [Poll.mk MissionStatus.SUCCESS false]
    (RunResult.mk true 0 1 false) rfl

/-- C5: if the first run of a repeat-for-duration execution fails,
`repeat_mission` returns false at once, after exactly one run and zero restart
commands. -/
theorem C5_first_failure_no_restart (fq : Bool) (t : Nat) (fp : List Poll)
    (fd : Nat) (iters : List Iteration) (r : RunResult)
    (hr : run_mission fq fp = some r) (hfail : r.success = false) :
    repeat_mission fq t fp fd iters = some ⟨false, 1, 0, r.plays, r.abortedByQuestion⟩ := by
  simp [repeat_mission, hr, hfail]

/-- C5 witness: a first run that polls FAILURE at once makes `repeat_mission`
stop with no restart. -/
theorem C5_witness :
    repeat_mission false 10 [Poll.mk MissionStatus.FAILURE false] 4 []
      = some ⟨false, 1, 0, 0, false⟩ :=
  C5_first_failure_no_restart false 10 [Poll.mk MissionStatus.FAILURE false] 4 []
    ⟨false, 0, 1, false⟩ rfl rfl

/-- C7: with `fail_on_question` set, the first poll that reports a pending
question while the mission is still in {NONE, RUNNING} makes `run_mission`
return false right there: one play was issued per earlier poll and none for
the question poll, and the function returns an ordinary boolean (the abort is
recorded as a soft mission failure, not raised as a fatal error). -/
theorem C7_question_abort (pre : List Poll) (s : MissionStatus) (rest : List Poll)
    (hpre : ∀ p ∈ pre, statusContinues p.status = true ∧ p.questions = false)
    (hs : statusContinues s = true) :
    run_mission true (pre ++ Poll.mk s true :: rest)
      = some ⟨false, pre.length, pre.length + 1, true⟩ := by
  induction pre with
  | nil => simp [run_mission, hs]
  | cons q pre ih =>
    obtain ⟨hq1, hq2⟩ := hpre q (by simp)
    have hrest : ∀ p ∈ pre, statusContinues p.status = true ∧ p.questions = false :=
      fun p hp => hpre p (by simp [hp])
    simp [run_mission, hq1, hq2, ih hrest]

/-- C7 witness: one RUNNING poll without questions, then a RUNNING poll with a
question: the run aborts at the second poll after a single play. -/
theorem C7_witness :
    run_mission true
        ([Poll.mk MissionStatus.RUNNING false] ++ Poll.mk MissionStatus.RUNNING true :: [])
      = some ⟨false, 1, 2, true⟩ :=
  C7_question_abort [Poll.mk MissionStatus.RUNNING false] MissionStatus.RUNNING []
    (by simp [statusContinues]) rfl

/-- C9: if the robot reports it is already powered on, `ensure_power_on`
returns true immediately, the robot stays powered, and no power-on command is
issued — whatever a power-on attempt would have done. -/
theorem C9_already_powered_on (w : Bool) :
    ensure_power_on true w = ⟨true, true, false⟩ := by
  rfl

/-- C9 witness: the theorem applied with a power-on attempt that would have
failed. -/
theorem C9_witness : ensure_power_on true false = ⟨true, true, false⟩ :=
  C9_already_powered_on false

/-- C6: with a 10-second budget, a first run lasting 4 seconds and two further
restart-preceded iterations of 4 seconds each, all successful, the repeat loop
performs exactly 3 run invocations and 2 restarts (elapsed 4, then 8, then 12,
at which point 12 ≥ 10 stops the loop) and returns true. -/
theorem C6_ten_second_repeat (fq : Bool) (fp : List Poll) (r r1 r2 : RunResult)
    (it1 it2 : Iteration) (rest : List Iteration)
    (hfp : run_mission fq fp = some r) (hs : r.success = true)
    (h1 : run_mission fq it1.polls = some r1) (hs1 : r1.success = true)
    (h2 : run_mission fq it2.polls = some r2) (hs2 : r2.success = true)
    (hd1 : it1.restartDuration = 0) (hr1 : it1.runDuration = 4)
    (hd2 : it2.restartDuration = 0) (hr2 : it2.runDuration = 4) :
    ∃ rr, repeat_mission fq 10 fp 4 (it1 :: it2 :: rest) = some rr ∧
      rr.success = true ∧ rr.runs = 3 ∧ rr.restarts = 2 := by
  have hdone : repeatLoop fq 10 12 rest = some ⟨true, 0, 0, 0, false⟩ :=
    repeatLoop_done fq 10 12 rest (by norm_num)
  refine ⟨⟨true, 3, 2, (r2.plays + r1.plays) + r.plays,
      ((r2.abortedByQuestion || r1.abortedByQuestion) || r.abortedByQuestion)⟩, ?_, rfl, rfl, rfl⟩
  simp [repeat_mission, hfp, hs, repeatLoop, h1, hs1, h2, hs2, hd1, hr1, hd2, hr2, hdone]

/-- C6 witness: each run succeeds on its first poll and is assigned a duration
of 4 seconds; the repeat over a 10-second budget does 3 runs and 2 restarts. -/
theorem C6_witness :
    ∃ rr, repeat_mission false 10 [Poll.mk MissionStatus.SUCCESS false] 4
        [Iteration.mk MissionStatus.FAILURE 0 [Poll.mk MissionStatus.SUCCESS false] 4,
          Iteration.mk MissionStatus.SUCCESS 0 [Poll.mk MissionStatus.SUCCESS false] 4]
        = some rr ∧ rr.success = true ∧ rr.runs = 3 ∧ rr.restarts = 2 :=
  C6_ten_second_repeat false [Poll.mk MissionStatus.SUCCESS false]
    ⟨true, 0, 1, false⟩ ⟨true, 0, 1, false⟩ ⟨true, 0, 1, false⟩
    (Iteration.mk MissionStatus.FAILURE 0 [Poll.mk MissionStatus.SUCCESS false] 4)
    (Iteration.mk MissionStatus.SUCCESS 0 [Poll.mk MissionStatus.SUCCESS false] 4)
    [] rfl rfl rfl rfl rfl rfl rfl rfl rfl rfl

/-- Two iteration oracles that agree on everything except the statuses the
restart RPC reports drive the repeat loop identically. -/
theorem repeatLoop_congr (fq : Bool) (t : Nat) (l1 : List Iteration) :
    ∀ (e : Nat) (l2 : List Iteration),
      l1.map Iteration.observables = l2.map Iteration.observables →
      repeatLoop fq t e l1 = repeatLoop fq t e l2 := by
  induction l1 with
  | nil =>
    intro e l2 h
    cases l2 with
    | nil => rfl
    | cons b l2 => simp at h
  | cons a l1 ih =>
    intro e l2 h
    cases l2 with
    | nil => simp at h
    | cons b l2 =>
      simp only [List.map_cons, List.cons.injEq, Iteration.observables,
        Prod.mk.injEq] at h
      obtain ⟨⟨hp, hrd, hrun⟩, htail⟩ := h
      simp only [repeatLoop]
      rw [hp, hrd, hrun, ih (e + b.restartDuration + b.runDuration) l2 htail]

/-- C10: the outcome of `repeat_mission` — its boolean result and its counts of
runs, restarts and plays — is the same for any two executions that differ only
in the statuses the restart RPC reports: that status is computed into a
boolean by `restart_mission` and then discarded by the repeat loop. -/
theorem C10_restart_status_irrelevant (fq : Bool) (t : Nat) (fp : List Poll)
    (fd : Nat) (l1 l2 : List Iteration)
    (h : l1.map Iteration.observables = l2.map Iteration.observables) :
    repeat_mission fq t fp fd l1 = repeat_mission fq t fp fd l2 := by
  unfold repeat_mission
  rw [repeatLoop_congr fq t l1 fd l2 h]

/-- C10 witness: two single-iteration oracles whose restart RPC reports
FAILURE and SUCCESS respectively produce identical repeat outcomes. -/
theorem C10_witness :
    repeat_mission false 10 [Poll.mk MissionStatus.SUCCESS false] 4
        [Iteration.mk MissionStatus.FAILURE 0 [Poll.mk MissionStatus.SUCCESS false] 7]
      = repeat_mission false 10 [Poll.mk MissionStatus.SUCCESS false] 4
        [Iteration.mk MissionStatus.SUCCESS 0 [Poll.mk MissionStatus.SUCCESS false] 7] :=
  C10_restart_status_irrelevant false 10 [Poll.mk MissionStatus.SUCCESS false] 4
    [Iteration.mk MissionStatus.FAILURE 0 [Poll.mk MissionStatus.SUCCESS false] 7]
    [Iteration.mk MissionStatus.SUCCESS 0 [Poll.mk MissionStatus.SUCCESS false] 7]
    rfl

/-- Lease-return events are never produced by the upload phase. -/
theorem returnLease_not_upload (lease : Nat) (g : Graph) :
    Event.returnLease ∉ upload_graph_and_snapshots lease g := by
  simp [upload_graph_and_snapshots]

/-- Lease-return events are never produced by client initialization. -/
theorem returnLease_not_init (env : Env) (lease : Nat) (dml : Bool) :
    Event.returnLease ∉ (init_clients env lease dml).1 := by
  unfold init_clients
  split_ifs <;> simp [upload_graph_and_snapshots]

/-- Membership in a list that is either a fixed list or empty implies
membership in the fixed list. -/
theorem mem_of_mem_if_nil {c : Prop} [Decidable c] {l : List Event} {e : Event}
    (h : e ∈ (if c then l else [])) : e ∈ l := by
  by_cases hc : c
  · simpa [hc] using h
  · simp [hc] at h

/-- Every event of the try block comes from client initialization or from the
fixed whitelist of later phases (power-on, stand, play, restart), and with no
map directory the body never records a question abort. -/
theorem tryBody_spec (args : Args) (env : Env) (lease : Nat) (b : BodyResult)
    (h : tryBody args env lease = some b) :
    (∀ e ∈ b.events, e ∈ (init_clients env lease args.map_directory.isSome).1 ∨
      e = Event.powerOnCmd ∨ e = Event.standCmd ∨ e = Event.playMission ∨
      e = Event.restartCmd) ∧
    (args.map_directory.isSome = false → b.questionAborted = false) := by
  simp only [tryBody] at h
  split at h
  · rename_i evs f heq
    rw [heq]
    simp only [Option.some.injEq] at h
    subst h
    exact ⟨fun e he => Or.inl he, fun _ => rfl⟩
  · rename_i evs heq
    rw [heq]
    split at h
    · simp only [Option.some.injEq] at h
      subst h
      exact ⟨fun e he => Or.inl he, fun _ => rfl⟩
    · split at h
      · simp only [Option.some.injEq] at h
        subst h
        refine ⟨fun e he => ?_, fun _ => rfl⟩
        simp only [List.mem_append] at he
        rcases he with he | he
        · exact Or.inl he
        · exact Or.inr (Or.inl (by simpa using mem_of_mem_if_nil he))
      · split at h
        · simp only [Option.some.injEq] at h
          subst h
          refine ⟨fun e he => ?_, fun _ => rfl⟩
          simp only [List.mem_append] at he
          rcases he with (he | he) | he
          · exact Or.inl he
          · exact Or.inr (Or.inl (by simpa using mem_of_mem_if_nil he))
          · simp only [List.mem_singleton] at he
            exact Or.inr (Or.inr (Or.inl he))
        · split at h
          · split at h
            · exact absurd h (by simp)
            · rename_i r hrm
              simp only [Option.some.injEq] at h
              subst h
              refine ⟨fun e he => ?_, fun hmap => ?_⟩
              · simp only [List.mem_append] at he
                rcases he with ((he | he) | he) | he
                · exact Or.inl he
                · exact Or.inr (Or.inl (by simpa using mem_of_mem_if_nil he))
                · simp only [List.mem_singleton] at he
                  exact Or.inr (Or.inr (Or.inl he))
                · simp only [List.mem_replicate] at he
                  exact Or.inr (Or.inr (Or.inr (Or.inl he.2)))
              · rw [hmap] at hrm
                exact run_mission_no_abort env.firstPolls r hrm
          · split at h
            · exact absurd h (by simp)
            · rename_i rr hrm
              simp only [Option.some.injEq] at h
              subst h
              refine ⟨fun e he => ?_, fun hmap => ?_⟩
              · simp only [List.mem_append] at he
                rcases he with (((he | he) | he) | he) | he
                · exact Or.inl he
                · exact Or.inr (Or.inl (by simpa using mem_of_mem_if_nil he))
                · simp only [List.mem_singleton] at he
                  exact Or.inr (Or.inr (Or.inl he))
                · simp only [List.mem_replicate] at he
                  exact Or.inr (Or.inr (Or.inr (Or.inr he.2)))
                · simp only [List.mem_replicate] at he
                  exact Or.inr (Or.inr (Or.inr (Or.inl he.2)))
              · rw [hmap] at hrm
                exact repeat_mission_no_abort args.duration env.firstPolls
                  env.firstRunDuration env.iterations rr hrm

/-- C1: in every run whose lease acquisition succeeded (witnessed by the
acquire event being on the trace), the lease-return call appears exactly once
among the run's events — whatever later phase failed, and in particular also
when the power-off attempt during release fails. -/
theorem C1_release_exactly_once (args : Args) (env : Env) (res : MainResult)
    (h : mainRun args env = some res) (hacq : Event.acquireLease ∈ res.events) :
    res.events.count Event.returnLease = 1 := by
  simp only [mainRun] at h
  split_ifs at h with h1 h2 h3
  · simp only [Option.some.injEq] at h
    subst h
    simp at hacq
  · simp only [Option.some.injEq] at h
    subst h
    simp at hacq
  · simp only [Option.some.injEq] at h
    subst h
    simp at hacq
  · split at h
    · exact absurd h (by simp)
    · rename_i body hbody
      simp only [Option.some.injEq] at h
      subst h
      have hnb : Event.returnLease ∉ body.events := by
        intro hmem
        rcases (tryBody_spec args env 0 body hbody).1 _ hmem with hi | h4 | h4 | h4 | h4
        · exact returnLease_not_init env 0 args.map_directory.isSome hi
        all_goals simp at h4
      by_cases hci : (ensure_power_off body.poweredAfter env.powerOffWorks).commandIssued = true <;>
        simp [hci, List.count_cons, List.count_append, List.count_eq_zero.mpr hnb]

/-- C1 witness: a static-mode run in which the robot is powered on and the
power-off during release fails; the lease is still returned exactly once. -/
theorem C1_witness :
    mainRun argsStatic envPowerOffFails = some
      ⟨0, none, [Event.acquireLease, Event.loadMission 0, Event.standCmd,
        Event.powerOffCmd, Event.returnLease], false⟩ ∧
    ([Event.acquireLease, Event.loadMission 0, Event.standCmd,
      Event.powerOffCmd, Event.returnLease] : List Event).count Event.returnLease = 1 :=
  ⟨by decide,
    C1_release_exactly_once argsStatic envPowerOffFails
      ⟨0, none, [Event.acquireLease, Event.loadMission 0, Event.standCmd,
        Event.powerOffCmd, Event.returnLease], false⟩
      (by decide) (by decide)⟩

/-- C2: when the configured mission file does not exist (and the arguments and
connection are otherwise fine), the lease is acquired first, the run then
fails fatally — exit code 1, fatal cause the missing mission file — with no
clear-localization, upload, or mission-load call ever issued, and the release
step (power-off attempt if the robot is on, then the lease return) still runs:
the whole event trace is exactly acquire, optional power-off, return. -/
theorem C2_missing_mission_file (args : Args) (env : Env)
    (hm : args.mission_file.isSome = true) (hc : env.connectOk = true)
    (hl : env.leaseGranted = true) (hf : env.missionFileExists = false) :
    mainRun args env = some ⟨1, some Fatal.missionFileMissing,
      Event.acquireLease ::
        ((if env.poweredOn then [Event.powerOffCmd] else []) ++ [Event.returnLease]),
      false⟩ := by
  have hmn : args.mission_file.isNone = false := by
    rcases hx : args.mission_file with _ | m
    · rw [hx] at hm
      simp at hm
    · rfl
  by_cases hp : env.poweredOn = true <;>
    by_cases hw : env.powerOffWorks = true <;>
      simp [mainRun, tryBody, init_clients, ensure_power_off, hmn, hc, hl, hf, hp, hw]

/-- C2 witness: map and mission arguments given, connection and lease fine,
mission file missing, robot powered off — the run is exactly acquire, fatal
detection, lease return. -/
theorem C2_witness :
    mainRun argsBoth envNoFile = some ⟨1, some Fatal.missionFileMissing,
      Event.acquireLease ::
        ((if envNoFile.poweredOn then [Event.powerOffCmd] else []) ++ [Event.returnLease]),
      false⟩ :=
  C2_missing_mission_file argsBoth envNoFile rfl rfl rfl rfl

/-- C4: with a map directory supplied and all files present, client
initialization issues exactly: clear-localization, then the graph upload, then
one upload per waypoint snapshot referenced by the graph, then one upload per
edge snapshot referenced by the graph, then the mission load — so the graph
precedes every snapshot and every waypoint snapshot precedes every edge
snapshot — and every upload call carries the current lease. -/
theorem C4_upload_order (env : Env) (lease : Nat)
    (hmf : env.missionFileExists = true) (hmd : env.mapDirExists = true)
    (hread : env.mapFilesReadable = true) :
    ∃ (wids eids : List String),
      init_clients env lease true =
        (Event.clearGraph :: Event.uploadGraph lease ::
          ((wids.map fun sid => Event.uploadWaypointSnapshot sid lease)
            ++ ((eids.map fun sid => Event.uploadEdgeSnapshot sid lease)
              ++ [Event.loadMission lease])), none) ∧
      (∀ sid, sid ∈ wids ↔ sid ∈ env.graph.waypointSnapshotIds) ∧
      (∀ sid, sid ∈ eids ↔ sid ∈ env.graph.edgeSnapshotIds) := by
  refine ⟨dictKeys env.graph.waypointSnapshotIds, dictKeys env.graph.edgeSnapshotIds,
    ?_, fun sid => mem_dictKeys sid env.graph.waypointSnapshotIds,
    fun sid => mem_dictKeys sid env.graph.edgeSnapshotIds⟩
  simp [init_clients, hmf, hmd, hread, upload_graph_and_snapshots]

/-- C4 witness: a graph referencing waypoint snapshots w1 (twice) and w2 and
edge snapshot e1. -/
theorem C4_witness :
    ∃ (wids eids : List String),
      init_clients envMap 0 true =
        (Event.clearGraph :: Event.uploadGraph 0 ::
          ((wids.map fun sid => Event.uploadWaypointSnapshot sid 0)
            ++ ((eids.map fun sid => Event.uploadEdgeSnapshot sid 0)
              ++ [Event.loadMission 0])), none) ∧
      (∀ sid, sid ∈ wids ↔ sid ∈ envMap.graph.waypointSnapshotIds) ∧
      (∀ sid, sid ∈ eids ↔ sid ∈ envMap.graph.edgeSnapshotIds) :=
  C4_upload_order envMap 0 rfl rfl rfl

/-- C8: a run invoked without a map directory (but with a mission file) never
issues a clear-localization, graph-upload or snapshot-upload call, and no poll
of the execute phase ever aborts the run on a pending operator question,
because `fail_on_question` is derived from the map directory. -/
theorem C8_no_map_directory (args : Args) (env : Env) (res : MainResult)
    (hmap : args.map_directory = none) (hm : args.mission_file.isSome = true)
    (h : mainRun args env = some res) :
    res.questionAborted = false ∧ ∀ e ∈ res.events, Event.isGraphOp e = false := by
  simp only [mainRun] at h
  split_ifs at h with h1 h2 h3
  · simp only [Option.some.injEq] at h
    subst h
    exact ⟨rfl, by simp⟩
  · simp only [Option.some.injEq] at h
    subst h
    exact ⟨rfl, by simp⟩
  · simp only [Option.some.injEq] at h
    subst h
    exact ⟨rfl, by simp⟩
  · split at h
    · exact absurd h (by simp)
    · rename_i body hbody
      simp only [Option.some.injEq] at h
      subst h
      have hs := tryBody_spec args env 0 body hbody
      have hmapF : args.map_directory.isSome = false := by
        rw [hmap]
        rfl
      refine ⟨hs.2 hmapF, fun e he => ?_⟩
      rcases List.mem_cons.mp he with rfl | he2
      · rfl
      rcases List.mem_append.mp he2 with he3 | he4
      · rcases hs.1 e he3 with hi | rfl | rfl | rfl | rfl
        · rw [hmapF] at hi
          revert hi
          unfold init_clients
          split_ifs <;> simp_all [Event.isGraphOp]
        · rfl
        · rfl
        · rfl
        · rfl
      · rcases List.mem_append.mp he4 with he5 | he6
        · have hx := mem_of_mem_if_nil he5
          simp only [List.mem_singleton] at hx
          subst hx
          rfl
        · simp only [List.mem_singleton] at he6
          subst he6
          rfl

/-- C8 witness: mission file only; the first poll carries a pending question
but the run does not abort, and no graph call appears on the trace. -/
theorem C8_witness :
    (⟨0, none, [Event.acquireLease, Event.loadMission 0, Event.standCmd,
      Event.playMission, Event.powerOffCmd, Event.returnLease], false⟩ :
        MainResult).questionAborted = false ∧
    ∀ e ∈ (⟨0, none, [Event.acquireLease, Event.loadMission 0, Event.standCmd,
      Event.playMission, Event.powerOffCmd, Event.returnLease], false⟩ :
        MainResult).events, Event.isGraphOp e = false :=
  C8_no_map_directory argsNoMap envRun
    ⟨0, none, [Event.acquireLease, Event.loadMission 0, Event.standCmd,
      Event.playMission, Event.powerOffCmd, Event.returnLease], false⟩
    rfl rfl (by decide)

end ReplayMission
